import Mathlib

/-!
# Verification of the graphicscommand queue and the restorable-image layer

This file gives a shallow embedding, in Lean 4, of the command-queue code of the
`graphicscommand` package (file `part_001` of the repository sources) together with a
model, built from the specification, of the restorable-image restoration pass, and
proves properties of both.

Modelling conventions:
* Go machine integers are `Nat` with an explicit `% 2 ^ 32` where uint32 wrap-around
  matters (the index buffer).
* float32 values are kept symbolic: the queue never inspects a float, it only moves
  bit patterns around and compares them for equality, so a vertex float is identified
  with its 32-bit pattern (a `Nat`) and a uniform dword is a symbolic expression
  (`UVal`) recording exactly which source expression produced it.
* Pointer identity of images and shaders is modelled by numeric identifiers.
* The render thread is sequentialized: a function handed to `runOnRenderThread` is
  executed inline, and the backend (`graphicsdriver.Graphics`) is a record of
  error-result oracles, one per call site, plus an event trace recording every
  backend call that the queue performs.
-/

set_option autoImplicit false

namespace GraphicsCommand

/-- Backend error values, kept opaque. -/
abbrev Err := Nat

/-- A vertex float32, identified with its 32-bit pattern and otherwise opaque. -/
abbrev VFloat := Nat

/-- Embeds the Go constant `is32bit = 1 >> (^uint(0) >> 63)` for a word size of
`wordSize` bits: the all-ones word is `2 ^ wordSize - 1`. -/
def goIs32bit (wordSize : Nat) : Nat :=
  1 >>> ((2 ^ wordSize - 1) >>> 63)

/-- Embeds the Go constant `is64bit = 1 - is32bit`. -/
def goIs64bit (wordSize : Nat) : Nat :=
  1 - goIs32bit wordSize

/-- Modelled from the spec: `graphics.VertexFloatCount`, the number of float32 values
stored per vertex by the graphics package, is not part of the embedded sources (only
its uses are); the repository's graphics package defines it as 8 (destination x/y,
source x/y and four color components). -/
def VertexFloatCount : Nat := 8

/-- Embeds `MaxVertexCount = is64bit*math.MaxUint32 + is32bit*(math.MaxInt32/graphics.VertexFloatCount)`
parametrically in the architecture word size and in the vertex float count. -/
def MaxVertexCountArch (wordSize vfc : Nat) : Nat :=
  goIs64bit wordSize * (2 ^ 32 - 1) + goIs32bit wordSize * ((2 ^ 31 - 1) / vfc)

/-- Embeds `maxVertexFloatCount = MaxVertexCount * graphics.VertexFloatCount`. -/
def maxVertexFloatCountArch (wordSize vfc : Nat) : Nat :=
  MaxVertexCountArch wordSize vfc * vfc

/-- The queue model is the 64-bit build of the package. -/
def maxVertexFloatCount : Nat := maxVertexFloatCountArch 64 VertexFloatCount

/-- Embeds `mustUseDifferentVertexBuffer`: reports whether a different vertex buffer
must be used. -/
def mustUseDifferentVertexBuffer (nextNumVertexFloats : Nat) : Bool :=
  decide (maxVertexFloatCount < nextNumVertexFloats)

/-- A symbolic float32 expression: the queue only ever forms integer-to-float
conversions and float32 divisions before taking the bit pattern, so the value is
recorded as the expression that produced it. -/
inductive F32 where
  | ofInt (n : Int)
  | fdiv (a b : F32)
deriving DecidableEq

/-- One uniform dword (uint32). `dirty` marks a freshly allocated, not yet written
slot of the reusable uint32 buffer; `raw` is a caller-supplied dword or a literal 0
from the source; `f32bits` is `math.Float32bits` of a float expression. -/
inductive UVal where
  | dirty
  | raw (n : Nat)
  | f32bits (x : F32)
deriving DecidableEq

/-- A graphicscommand `Image`: pointer identity plus the backend-padded internal
texture size reported by `InternalSize`. -/
structure Image where
  id : Nat
  internalWidth : Int
  internalHeight : Int
deriving DecidableEq

/-- The fixed four-slot source-image array `[graphics.ShaderSrcImageCount]*Image`. -/
structure Srcs where
  s0 : Option Image
  s1 : Option Image
  s2 : Option Image
  s3 : Option Image
deriving DecidableEq

/-- A Go `image.Rectangle`. -/
structure Rect where
  minX : Int
  minY : Int
  maxX : Int
  maxY : Int
deriving DecidableEq

/-- `r.Dx()`. -/
def Rect.dx (r : Rect) : Int := r.maxX - r.minX

/-- `r.Dy()`. -/
def Rect.dy (r : Rect) : Int := r.maxY - r.minY

/-- The fixed four-slot source-region array. -/
structure SrcRegions where
  r0 : Rect
  r1 : Rect
  r2 : Rect
  r3 : Rect
deriving DecidableEq

/-- The shader's coordinate unit (`shaderir.Texels` or `shaderir.Pixels`). -/
inductive ShaderUnit where
  | texels
  | pixels
deriving DecidableEq

/-- A graphicscommand `Shader`: pointer identity plus the coordinate unit used by
`prependPreservedUniforms`. -/
structure Shader where
  id : Nat
  unit : ShaderUnit
deriving DecidableEq

/-- Blend state, compared only for equality by the queue. -/
abbrev Blend := Nat

/-- Fill rule, compared only for equality by the queue. -/
abbrev FillRule := Nat

/-- A `graphicsdriver.DstRegion`: one destination sub-region of a merged draw. -/
structure DstRegion where
  region : Rect
  indexCount : Nat
deriving DecidableEq

/-- Embeds `rectangleF32`, whose fields are float32 values. -/
structure RectangleF32 where
  x : F32
  y : F32
  width : F32
  height : F32
deriving DecidableEq

/-- Embeds `imageRectangleToRectangleF32`. -/
def imageRectangleToRectangleF32 (r : Rect) : RectangleF32 :=
  { x := F32.ofInt r.minX
    y := F32.ofInt r.minY
    width := F32.ofInt r.dx
    height := F32.ofInt r.dy }

/-- `graphics.PreservedUniformDwordCount`; the source pins this value to 46 with a
compile-time assertion. -/
def PreservedUniformDwordCount : Nat := 46

/-- The source-region normalization loop body of `prependPreservedUniforms`: a source
rectangle is divided componentwise by its image's internal size when the shader works
in texels, and is skipped when the source slot is nil. -/
def normalizeSrcRect (unit : ShaderUnit) (s : Option Image) (r : RectangleF32) :
    RectangleF32 :=
  match unit, s with
  | ShaderUnit.texels, some img =>
    { x := F32.fdiv r.x (F32.ofInt img.internalWidth)
      y := F32.fdiv r.y (F32.ofInt img.internalHeight)
      width := F32.fdiv r.width (F32.ofInt img.internalWidth)
      height := F32.fdiv r.height (F32.ofInt img.internalHeight) }
  | _, _ => r

/-- An in-place indexed write `uniforms[i] = v`, with the written slice embedded as
a map from slot index to dword. -/
def writeSlot (u : Nat → UVal) (i : Nat) (v : UVal) : Nat → UVal :=
  fun j => if j = i then v else u j

/-- The two slots written for one source image size: the internal size when the slot
is occupied, literal zeros otherwise. -/
def setSrcSize (u : Nat → UVal) (i : Nat) (s : Option Image) : Nat → UVal :=
  match s with
  | some img =>
    writeSlot (writeSlot u i (UVal.f32bits (F32.ofInt img.internalWidth))) (i + 1)
      (UVal.f32bits (F32.ofInt img.internalHeight))
  | none => writeSlot (writeSlot u i (UVal.raw 0)) (i + 1) (UVal.raw 0)

/-- Embeds the free function `prependPreservedUniforms`: writes the 46 preserved
slots of the already-allocated buffer, in the order the source writes them, over
the slot map `u` (which starts out holding whatever the reused allocation held). -/
def writePreservedUniforms (uniforms : Nat → UVal) (shader : Shader) (dst : Image)
    (srcs : Srcs) (dstRegion : Rect) (srcRegions : SrcRegions) : Nat → UVal :=
  let dw := dst.internalWidth
  let dh := dst.internalHeight
  let u := uniforms
  let u := writeSlot u 0 (UVal.f32bits (F32.ofInt dw))
  let u := writeSlot u 1 (UVal.f32bits (F32.ofInt dh))
  let u := setSrcSize u 2 srcs.s0
  let u := setSrcSize u 4 srcs.s1
  let u := setSrcSize u 6 srcs.s2
  let u := setSrcSize u 8 srcs.s3
  let dr := imageRectangleToRectangleF32 dstRegion
  let dr :=
    if shader.unit = ShaderUnit.texels then
      { x := F32.fdiv dr.x (F32.ofInt dw)
        y := F32.fdiv dr.y (F32.ofInt dh)
        width := F32.fdiv dr.width (F32.ofInt dw)
        height := F32.fdiv dr.height (F32.ofInt dh) }
    else dr
  let u := writeSlot u 10 (UVal.f32bits dr.x)
  let u := writeSlot u 11 (UVal.f32bits dr.y)
  let u := writeSlot u 12 (UVal.f32bits dr.width)
  let u := writeSlot u 13 (UVal.f32bits dr.height)
  let sr0 := normalizeSrcRect shader.unit srcs.s0 (imageRectangleToRectangleF32 srcRegions.r0)
  let sr1 := normalizeSrcRect shader.unit srcs.s1 (imageRectangleToRectangleF32 srcRegions.r1)
  let sr2 := normalizeSrcRect shader.unit srcs.s2 (imageRectangleToRectangleF32 srcRegions.r2)
  let sr3 := normalizeSrcRect shader.unit srcs.s3 (imageRectangleToRectangleF32 srcRegions.r3)
  let u := writeSlot u 14 (UVal.f32bits sr0.x)
  let u := writeSlot u 15 (UVal.f32bits sr0.y)
  let u := writeSlot u 16 (UVal.f32bits sr1.x)
  let u := writeSlot u 17 (UVal.f32bits sr1.y)
  let u := writeSlot u 18 (UVal.f32bits sr2.x)
  let u := writeSlot u 19 (UVal.f32bits sr2.y)
  let u := writeSlot u 20 (UVal.f32bits sr3.x)
  let u := writeSlot u 21 (UVal.f32bits sr3.y)
  let u := writeSlot u 22 (UVal.f32bits sr0.width)
  let u := writeSlot u 23 (UVal.f32bits sr0.height)
  let u := writeSlot u 24 (UVal.f32bits sr1.width)
  let u := writeSlot u 25 (UVal.f32bits sr1.height)
  let u := writeSlot u 26 (UVal.f32bits sr2.width)
  let u := writeSlot u 27 (UVal.f32bits sr2.height)
  let u := writeSlot u 28 (UVal.f32bits sr3.width)
  let u := writeSlot u 29 (UVal.f32bits sr3.height)
  let u := writeSlot u 30 (UVal.f32bits (F32.fdiv (F32.ofInt 2) (F32.ofInt dw)))
  let u := writeSlot u 31 (UVal.raw 0)
  let u := writeSlot u 32 (UVal.raw 0)
  let u := writeSlot u 33 (UVal.raw 0)
  let u := writeSlot u 34 (UVal.raw 0)
  let u := writeSlot u 35 (UVal.f32bits (F32.fdiv (F32.ofInt 2) (F32.ofInt dh)))
  let u := writeSlot u 36 (UVal.raw 0)
  let u := writeSlot u 37 (UVal.raw 0)
  let u := writeSlot u 38 (UVal.raw 0)
  let u := writeSlot u 39 (UVal.raw 0)
  let u := writeSlot u 40 (UVal.f32bits (F32.ofInt 1))
  let u := writeSlot u 41 (UVal.raw 0)
  let u := writeSlot u 42 (UVal.f32bits (F32.ofInt (-1)))
  let u := writeSlot u 43 (UVal.f32bits (F32.ofInt (-1)))
  let u := writeSlot u 44 (UVal.raw 0)
  let u := writeSlot u 45 (UVal.f32bits (F32.ofInt 1))
  u

/-- Embeds `commandQueue.prependPreservedUniforms`: allocates a window of
`len(uniforms) + 46` dwords from the reusable buffer (its slots possibly holding
stale data, marked `dirty` here), copies the caller-supplied uniforms at offset 46,
fills the preserved slots — every write of `writePreservedUniforms` targets a slot
below 46, and the source asserts the window holds at least 46 dwords — and returns
the resulting window as a list. -/
def prependPreservedUniformsQ (uniforms : List UVal) (shader : Shader) (dst : Image)
    (srcs : Srcs) (dstRegion : Rect) (srcRegions : SrcRegions) : List UVal :=
  (List.range PreservedUniformDwordCount).map
      (writePreservedUniforms (fun _ => UVal.dirty) shader dst srcs dstRegion srcRegions) ++
    uniforms

/-- A draw-triangles command record (`drawTrianglesCommand`). The vertex slice
aliases the queue's vertex buffer, so it is embedded as an explicit window
(`vStart`, `vCount`) into that buffer. `needsSync` records the value of the
command's `NeedsSync` method, whose body is not part of the embedded sources. -/
structure DrawCmd where
  dst : Image
  srcs : Srcs
  vStart : Nat
  vCount : Nat
  blend : Blend
  dstRegions : List DstRegion
  shader : Shader
  uniforms : List UVal
  fillRule : FillRule
  needsSync : Bool
deriving DecidableEq

/-- `len(c.vertices)`. -/
def DrawCmd.numVertices (c : DrawCmd) : Nat := c.vCount

/-- Modelled from the spec: `drawTrianglesCommand.numIndices` is not part of the
embedded sources; a merged command consumes one index span per destination
sub-region, so its index count is the sum of the sub-region index counts. -/
def DrawCmd.numIndices (c : DrawCmd) : Nat :=
  (c.dstRegions.map DstRegion.indexCount).sum

/-- Any other queued command (write-pixels, read-pixels, dispose, ...), reduced to
what the queue inspects: its identity and its `NeedsSync` answer. -/
structure OtherCmd where
  id : Nat
  needsSync : Bool
deriving DecidableEq

/-- The `command` interface, polymorphic over draw-triangles and other commands. -/
inductive Command where
  | draw (c : DrawCmd)
  | other (o : OtherCmd)
deriving DecidableEq

/-- The `NeedsSync()` method of a queued command. -/
def Command.needsSyncB : Command → Bool
  | Command.draw c => c.needsSync
  | Command.other o => o.needsSync

/-- The `commandQueue` state: pending commands, the accumulated vertex and index
buffers, the running vertex-float counter, the draw-command record pool and the
stored-error slot (`q.err`). The reusable uniform buffer and the finalizer list are
not modelled; no claim touches them. -/
structure CommandQueue where
  commands : List Command
  vertices : List VFloat
  indices : List Nat
  tmpNumVertexFloats : Nat
  pool : List DrawCmd
  errSlot : Option Err

/-- Embeds the loop of `commandQueue.appendIndices`: starting at position `n`, add
`offset` (uint32 wrap-around) to every element in place. -/
def addOffsetFrom (l : List Nat) (n : Nat) (offset : Nat) : List Nat :=
  match l, n with
  | [], _ => []
  | x :: rest, 0 => (x + offset) % 2 ^ 32 :: addOffsetFrom rest 0 offset
  | x :: rest, m + 1 => x :: addOffsetFrom rest m offset

/-- Embeds `commandQueue.appendIndices`: append the indices, then offset the
appended suffix in place. -/
def appendIndicesGo (base idx : List Nat) (offset : Nat) : List Nat :=
  addOffsetFrom (base ++ idx) base.length offset

/-- `q.lastVertices n` is the window over the last `n` accumulated vertex floats;
`spanSlice` reads such a window out of a buffer. -/
def spanSlice (vertices : List VFloat) (start count : Nat) : List VFloat :=
  (vertices.drop start).take count

/-- Modelled from the spec: `drawTrianglesCommand.CanMergeWithDrawTrianglesCommand`
is not part of the embedded sources. Per the spec, two consecutive draws merge when
they share destination image, source images, shader, blend mode and fill rule, and
the (already filtered) uniform values are equal dword for dword. -/
def canMerge (c : DrawCmd) (dst : Image) (srcs : Srcs) (blend : Blend)
    (shader : Shader) (uniforms : List UVal) (fillRule : FillRule) : Bool :=
  decide (c.dst = dst) && decide (c.srcs = srcs) && decide (c.shader = shader) &&
    decide (c.blend = blend) && decide (c.fillRule = fillRule) &&
    decide (c.uniforms = uniforms)

/-- The non-merge tail of `EnqueueDrawTrianglesCommand`: take a record from the pool
(every field of the reused record is overwritten, so only the pool shrinks), fill it
and append it to the command list. `base` already holds the updated buffers. -/
def appendNewDrawCommand (base : CommandQueue) (dst : Image) (srcs : Srcs)
    (vs : List VFloat) (indices : List Nat) (blend : Blend) (dstRegion : Rect)
    (shader : Shader) (uniforms2 : List UVal) (fillRule : FillRule)
    (newNeedsSync : Bool) : CommandQueue :=
  let c : DrawCmd :=
    { dst := dst
      srcs := srcs
      vStart := base.vertices.length - vs.length
      vCount := vs.length
      blend := blend
      dstRegions := [{ region := dstRegion, indexCount := indices.length }]
      shader := shader
      uniforms := uniforms2
      fillRule := fillRule
      needsSync := newNeedsSync }
  { base with
    commands := base.commands ++ [Command.draw c]
    pool := base.pool.dropLast }

/-- Embeds `commandQueue.EnqueueDrawTrianglesCommand`. The result is `none` exactly
when the Go code aborts with a panic: the fatal length check at the top, and the
(unreachable for queue-built states) indexing of an empty `dstRegions` slice during
a merge. `filterUniforms` stands for `shader.ir.FilterUniformVariables`, whose body
is not part of the embedded sources, and `newNeedsSync` for the enqueued command's
`NeedsSync` answer. -/
def enqueueDrawTriangles (q : CommandQueue) (dst : Image) (srcs : Srcs)
    (vs : List VFloat) (indices : List Nat) (blend : Blend) (dstRegion : Rect)
    (srcRegions : SrcRegions) (shader : Shader) (uniforms0 : List UVal)
    (fillRule : FillRule) (filterUniforms : List UVal → List UVal)
    (newNeedsSync : Bool) : Option CommandQueue :=
  if maxVertexFloatCount < vs.length then
    none
  else
    let split := mustUseDifferentVertexBuffer (q.tmpNumVertexFloats + vs.length)
    let tmp0 := if split then 0 else q.tmpNumVertexFloats
    let vertices1 := q.vertices ++ vs
    let indices1 := appendIndicesGo q.indices indices ((tmp0 / VertexFloatCount) % 2 ^ 32)
    let tmp1 := tmp0 + vs.length
    let uniforms1 := prependPreservedUniformsQ uniforms0 shader dst srcs dstRegion srcRegions
    let uniforms2 := filterUniforms uniforms1
    let base : CommandQueue :=
      { q with vertices := vertices1, indices := indices1, tmpNumVertexFloats := tmp1 }
    match q.commands.getLast? with
    | some (Command.draw last) =>
      if !split && canMerge last dst srcs blend shader uniforms2 fillRule then
        match last.dstRegions.getLast? with
        | none => none
        | some lastRegion =>
          let newRegions :=
            if lastRegion.region = dstRegion then
              last.dstRegions.dropLast ++
                [{ lastRegion with indexCount := lastRegion.indexCount + indices.length }]
            else
              last.dstRegions ++ [{ region := dstRegion, indexCount := indices.length }]
          let merged : DrawCmd :=
            { last with
              vStart := vertices1.length - (vs.length + last.numVertices)
              vCount := vs.length + last.numVertices
              dstRegions := newRegions }
          some { base with commands := q.commands.dropLast ++ [Command.draw merged] }
      else
        some (appendNewDrawCommand base dst srcs vs indices blend dstRegion shader
          uniforms2 fillRule newNeedsSync)
    | _ =>
      some (appendNewDrawCommand base dst srcs vs indices blend dstRegion shader
        uniforms2 fillRule newNeedsSync)

/-- One backend call performed during a flush. -/
inductive Ev where
  | beginE
  | setVerticesE (nv ne : Nat)
  | execE
  | endE (endFrame : Bool)
deriving DecidableEq

/-- Whether an event is the `End` call. -/
def Ev.isEnd : Ev → Bool
  | Ev.endE _ => true
  | _ => false

/-- The graphics driver as seen by `commandQueue.flush`: an error oracle per call
site. `setVerticesErr` is indexed by the number of prior `SetVertices` calls of the
same flush, `execErr` by the number of prior command executions. -/
structure Backend where
  beginErr : Option Err
  setVerticesErr : Nat → Option Err
  execErr : Nat → Option Err
  endErr : Bool → Option Err

/-- The run-extension loop at the head of the flush loop: scan commands, summing
draw vertex and index counts, stopping in front of a draw command that would step
past the vertex-buffer generation boundary (never stopping in front of the first
command). Returns `(nv, ne, nc)`. -/
def splitRunAux : List Command → Nat → Nat → Nat → Nat × Nat × Nat
  | [], nv, ne, nc => (nv, ne, nc)
  | c :: rest, nv, ne, nc =>
    match c with
    | Command.draw dtc =>
      if decide (0 < nc) && mustUseDifferentVertexBuffer (nv + dtc.numVertices) then
        (nv, ne, nc)
      else
        splitRunAux rest (nv + dtc.numVertices) (ne + dtc.numIndices) (nc + 1)
    | Command.other _ => splitRunAux rest nv ne (nc + 1)

/-- The run extension starting from zero counters. -/
def splitRun (cs : List Command) : Nat × Nat × Nat := splitRunAux cs 0 0 0

/-- The inner execution loop over one run: execute each command, stopping at the
first error. Returns the error, the trace and the next execution index. -/
def execRun (execErr : Nat → Option Err) : List Command → Nat → Option Err × List Ev × Nat
  | [], i => (none, [], i)
  | _ :: rest, i =>
    match execErr i with
    | some e => (some e, [Ev.execE], i + 1)
    | none =>
      let r := execRun execErr rest (i + 1)
      (r.1, Ev.execE :: r.2.1, r.2.2)

/-- The outer loop of `commandQueue.flush`, with explicit fuel (each iteration
consumes at least one command, so `cs.length` fuel is enough): extend a run, upload
its vertex and index span when it contains indices, execute the run's commands, then
continue with the remaining commands. -/
def flushBodyF (b : Backend) : Nat → List Command → Nat → Nat → Option Err × List Ev
  | 0, _, _, _ => (none, [])
  | fuel + 1, cs, svIdx, execIdx =>
    if cs.isEmpty then (none, [])
    else
      let r := splitRun cs
      let nv := r.1
      let ne := r.2.1
      let nc := r.2.2
      if 0 < ne then
        match b.setVerticesErr svIdx with
        | some e => (some e, [Ev.setVerticesE nv ne])
        | none =>
          let er := execRun b.execErr (cs.take nc) execIdx
          match er.1 with
          | some e => (some e, Ev.setVerticesE nv ne :: er.2.1)
          | none =>
            let rest := flushBodyF b fuel (cs.drop nc) (svIdx + 1) er.2.2
            (rest.1, Ev.setVerticesE nv ne :: er.2.1 ++ rest.2)
      else
        let er := execRun b.execErr (cs.take nc) execIdx
        match er.1 with
        | some e => (some e, er.2.1)
        | none =>
          let rest := flushBodyF b fuel (cs.drop nc) svIdx er.2.2
          (rest.1, er.2.1 ++ rest.2)

/-- The command-processing body of `commandQueue.flush`. -/
def flushBody (b : Backend) (cs : List Command) : Option Err × List Ev :=
  flushBodyF b cs.length cs 0 0

/-- The draw-triangles records of a command list, in order; the deferred cleanup
returns exactly these to the pool. -/
def drawRecords : List Command → List DrawCmd
  | [] => []
  | Command.draw c :: rest => c :: drawRecords rest
  | Command.other _ :: rest => drawRecords rest

/-- The outcome of one `commandQueue.flush` call on the render thread. -/
structure FlushOutcome where
  err : Option Err
  events : List Ev
  queue : CommandQueue

/-- Embeds `commandQueue.flush` (the render-thread body): the idle early return,
`Begin` (whose failure returns before the deferred cleanup is registered), the
command-processing loop, and the deferred block that calls `End`, keeps the first
error, returns the draw records to the pool and clears the buffers. -/
def flushModel (b : Backend) (q : CommandQueue) (endFrame : Bool) : FlushOutcome :=
  if q.commands.isEmpty && !endFrame then
    { err := none, events := [], queue := q }
  else
    match b.beginErr with
    | some e => { err := some e, events := [Ev.beginE], queue := q }
    | none =>
      let body := flushBody b q.commands
      let finalErr :=
        match body.1 with
        | some e => some e
        | none => b.endErr endFrame
      let cleared : CommandQueue :=
        { q with
          commands := []
          vertices := []
          indices := []
          tmpNumVertexFloats := 0
          pool := q.pool ++ drawRecords q.commands }
      { err := finalErr, events := Ev.beginE :: body.2 ++ [Ev.endE endFrame], queue := cleared }

/-- The synchronous-flush decision of `commandQueue.Flush`: forced when this is a
frame boundary with vsync enabled, otherwise required when some queued command
reports `NeedsSync()`. -/
def computeSync (endFrame vsyncOn : Bool) (cs : List Command) : Bool :=
  let s := endFrame && vsyncOn
  if s then s else cs.any Command.needsSyncB

/-- The outcome of one public `commandQueue.Flush` call: the error surfaced to the
caller, the queue afterwards, the sync decision, the backend trace, and whether the
queue was handed back to the pool. -/
structure FlushResult where
  returned : Option Err
  queue : CommandQueue
  sync : Bool
  events : List Ev
  putBack : Bool

/-- Embeds `commandQueue.Flush` with the render thread sequentialized: a stored
error is surfaced before anything else; otherwise the flush body runs, a failure of
a synchronous flush is returned while a failure of an asynchronous flush is stored
in the error slot, and only a successful flush returns the queue to the pool. -/
def flushPublic (b : Backend) (q : CommandQueue) (endFrame vsyncOn : Bool) :
    FlushResult :=
  match q.errSlot with
  | some e =>
    { returned := some e, queue := q, sync := false, events := [], putBack := false }
  | none =>
    let sync := computeSync endFrame vsyncOn q.commands
    let out := flushModel b q endFrame
    match out.err with
    | some e =>
      if sync then
        { returned := some e, queue := out.queue, sync := sync, events := out.events,
          putBack := false }
      else
        { returned := none, queue := { out.queue with errSlot := some e }, sync := sync,
          events := out.events, putBack := false }
    | none =>
      { returned := none, queue := out.queue, sync := sync, events := out.events,
        putBack := true }

/-! ## Sample values for concrete instantiations -/

def sImg : Image := { id := 0, internalWidth := 2, internalHeight := 2 }

def sImg1 : Image := { id := 1, internalWidth := 4, internalHeight := 4 }

def sSrcs : Srcs := { s0 := some sImg1, s1 := none, s2 := none, s3 := none }

def sRect : Rect := { minX := 0, minY := 0, maxX := 1, maxY := 1 }

def sRect2 : Rect := { minX := 0, minY := 0, maxX := 2, maxY := 2 }

def sSrcRegions : SrcRegions := { r0 := sRect, r1 := sRect, r2 := sRect, r3 := sRect }

def sShader : Shader := { id := 0, unit := ShaderUnit.pixels }

def sQueueEmpty : CommandQueue :=
  { commands := [], vertices := [], indices := [], tmpNumVertexFloats := 0, pool := [],
    errSlot := none }

def sQueueFull : CommandQueue :=
  { commands := [], vertices := [], indices := [], pool := [], errSlot := none,
    tmpNumVertexFloats := maxVertexFloatCount }

def sDstReg : DstRegion := { region := sRect, indexCount := 6 }

def sMergeCmd : DrawCmd :=
  { dst := sImg, srcs := sSrcs, vStart := 0, vCount := 8, blend := 0,
    dstRegions := [sDstReg], shader := sShader,
    uniforms := prependPreservedUniformsQ [] sShader sImg sSrcs sRect sSrcRegions,
    fillRule := 0, needsSync := false }

def sQueueMerge : CommandQueue :=
  { commands := [Command.draw sMergeCmd], vertices := [0, 1, 2, 3, 4, 5, 6, 7],
    indices := [0, 1, 2, 0, 2, 3], tmpNumVertexFloats := 8, pool := [],
    errSlot := none }

def sOther : OtherCmd := { id := 0, needsSync := false }

def sQueueCmds : CommandQueue :=
  { commands := [Command.other sOther], vertices := [], indices := [],
    tmpNumVertexFloats := 0, pool := [], errSlot := none }

def sBackendOk : Backend :=
  { beginErr := none, setVerticesErr := fun _ => none, execErr := fun _ => none,
    endErr := fun _ => none }

def sBackendBeginFail : Backend :=
  { beginErr := some 1, setVerticesErr := fun _ => none, execErr := fun _ => none,
    endErr := fun _ => none }

def sBackendExecFail : Backend :=
  { beginErr := none, setVerticesErr := fun _ => none, execErr := fun _ => some 2,
    endErr := fun _ => none }

def sBackendEndFail : Backend :=
  { beginErr := none, setVerticesErr := fun _ => none, execErr := fun _ => none,
    endErr := fun _ => some 3 }

/-- The two dwords holding one source image's internal size in the preserved block:
the size when the slot is occupied, literal zeros otherwise. Stated from the claim's
wording, to be compared with the write-based source embedding. -/
def specSrcSizePair (s : Option Image) : List UVal :=
  match s with
  | some img =>
    [UVal.f32bits (F32.ofInt img.internalWidth), UVal.f32bits (F32.ofInt img.internalHeight)]
  | none => [UVal.raw 0, UVal.raw 0]

/-- The preserved uniform block as the claim describes it: destination internal size
at slots 0-1, the four source internal sizes at 2-9 (zeros for absent sources),
destination region origin and size at 10-13 (normalized in texel mode), source
region origins at 14-21 and sizes at 22-29 (normalized in texel mode), and the
orthographic projection at 30-45 whose only non-zero entries sit at slots 30, 35,
40, 42, 43 and 45. -/
def specPreservedBlock (shader : Shader) (dst : Image) (srcs : Srcs)
    (dstRegion : Rect) (srcRegions : SrcRegions) : List UVal :=
  let dw := dst.internalWidth
  let dh := dst.internalHeight
  let dr0 := imageRectangleToRectangleF32 dstRegion
  let dr :=
    if shader.unit = ShaderUnit.texels then
      { x := F32.fdiv dr0.x (F32.ofInt dw)
        y := F32.fdiv dr0.y (F32.ofInt dh)
        width := F32.fdiv dr0.width (F32.ofInt dw)
        height := F32.fdiv dr0.height (F32.ofInt dh) : RectangleF32 }
    else dr0
  let sr0 := normalizeSrcRect shader.unit srcs.s0 (imageRectangleToRectangleF32 srcRegions.r0)
  let sr1 := normalizeSrcRect shader.unit srcs.s1 (imageRectangleToRectangleF32 srcRegions.r1)
  let sr2 := normalizeSrcRect shader.unit srcs.s2 (imageRectangleToRectangleF32 srcRegions.r2)
  let sr3 := normalizeSrcRect shader.unit srcs.s3 (imageRectangleToRectangleF32 srcRegions.r3)
  [UVal.f32bits (F32.ofInt dw), UVal.f32bits (F32.ofInt dh)] ++
    specSrcSizePair srcs.s0 ++ specSrcSizePair srcs.s1 ++
    specSrcSizePair srcs.s2 ++ specSrcSizePair srcs.s3 ++
    [UVal.f32bits dr.x, UVal.f32bits dr.y, UVal.f32bits dr.width, UVal.f32bits dr.height] ++
    [UVal.f32bits sr0.x, UVal.f32bits sr0.y, UVal.f32bits sr1.x, UVal.f32bits sr1.y,
      UVal.f32bits sr2.x, UVal.f32bits sr2.y, UVal.f32bits sr3.x, UVal.f32bits sr3.y] ++
    [UVal.f32bits sr0.width, UVal.f32bits sr0.height, UVal.f32bits sr1.width,
      UVal.f32bits sr1.height, UVal.f32bits sr2.width, UVal.f32bits sr2.height,
      UVal.f32bits sr3.width, UVal.f32bits sr3.height] ++
    [UVal.f32bits (F32.fdiv (F32.ofInt 2) (F32.ofInt dw)), UVal.raw 0, UVal.raw 0,
      UVal.raw 0, UVal.raw 0, UVal.f32bits (F32.fdiv (F32.ofInt 2) (F32.ofInt dh)),
      UVal.raw 0, UVal.raw 0, UVal.raw 0, UVal.raw 0, UVal.f32bits (F32.ofInt 1),
      UVal.raw 0, UVal.f32bits (F32.ofInt (-1)), UVal.f32bits (F32.ofInt (-1)),
      UVal.raw 0, UVal.f32bits (F32.ofInt 1)]

end GraphicsCommand

namespace Restorable

/-!
The restorable-image package itself is not part of the embedded sources (only its
test file is), so this whole namespace is modelled from the spec: a managed image
carries a base-pixel cache, a stale flag and the list of recorded draw operations
with their source-image identifiers; resolving reads the backend contents back into
the base cache and collapses history; restoration after a context loss rebuilds
every backend texture from base caches and recorded operations, processing images
only after their dependencies (list order is assumed to be such an order, which
holds for the acyclic chains considered here).
-/

/-- Abstract pixel contents of one managed image (the model is per whole image; the
chains of the claim use 1x1 images). `0` is the cleared state. -/
abbrev Pix := Nat

/-- The managed-image type tag. -/
inductive ImageType where
  | regular
  | volatile
  | screen
deriving DecidableEq

/-- Modelled from the spec: one recorded draw operation of a managed image's
history; `apply src dstCur` is the deterministic effect of replaying the draw given
the source image's contents and the destination's current contents. -/
structure DrawOp where
  srcId : Nat
  apply : Pix → Pix → Pix

/-- Modelled from the spec: a managed (restorable) image. -/
structure RImage where
  id : Nat
  itype : ImageType
  base : Pix
  stale : Bool
  ops : List DrawOp

/-- The world: the managed images and the backend texture contents by identifier. -/
structure World where
  images : List RImage
  gpu : Nat → Pix

/-- Point update of the backend contents. -/
def updateGpu (g : Nat → Pix) (i : Nat) (p : Pix) : Nat → Pix :=
  fun j => if j = i then p else g j

/-- Modelled from the spec: a full-image `WritePixels` uploads the bytes, makes them
the authoritative base pixels and supersedes the recorded history for the image. -/
def writePixels (w : World) (i : Nat) (p : Pix) : World :=
  { images :=
      w.images.map fun img =>
        if img.id = i then { img with base := p, stale := false, ops := [] } else img
    gpu := updateGpu w.gpu i p }

/-- Modelled from the spec: `DrawTriangles` applies the draw on the backend, appends
the operation to the destination's recorded history with the source recorded as a
dependency, and marks the destination stale. -/
def drawTriangles (w : World) (dstId srcId : Nat) (f : Pix → Pix → Pix) : World :=
  { images :=
      w.images.map fun img =>
        if img.id = dstId then
          { img with stale := true, ops := img.ops ++ [{ srcId := srcId, apply := f }] }
        else img
    gpu := updateGpu w.gpu dstId (f (w.gpu srcId) (w.gpu dstId)) }

/-- Modelled from the spec: `ResolveStaleImages` drives a readback of every stale
image into its base-pixel cache, collapsing the pending history; backend contents
are unchanged. -/
def resolveStale (w : World) : World :=
  { images :=
      w.images.map fun img =>
        if img.stale then { img with base := w.gpu img.id, stale := false, ops := [] }
        else img
    gpu := w.gpu }

/-- Modelled from the spec: replaying a stale image's recorded operations in
chronological order against the best-available backend state, starting from its
base pixels. -/
def replayOps (g : Nat → Pix) : Pix → List DrawOp → Pix
  | cur, [] => cur
  | cur, op :: rest => replayOps g (op.apply (g op.srcId) cur) rest

/-- Modelled from the spec: restoring one image. A volatile image is cleared, a
screen image is recreated through the backend's framebuffer path (out of scope, its
contents are left to the backend), a non-stale regular image is restored from its
authoritative base pixels, and a stale one replays its history. -/
def restoreOne (g : Nat → Pix) (img : RImage) : Pix :=
  match img.itype with
  | ImageType.volatile => 0
  | ImageType.screen => g img.id
  | ImageType.regular => if img.stale then replayOps g img.base img.ops else img.base

/-- Modelled from the spec: restoration after a context loss processes the images in
dependency order (list order here), updating the backend contents as it goes. -/
def restoreAll (imgs : List RImage) (g : Nat → Pix) : Nat → Pix :=
  match imgs with
  | [] => g
  | img :: rest => restoreAll rest (updateGpu g img.id (restoreOne g img))

/-- A fresh world of `n` cleared regular 1x1 images with identifiers `0..n-1`. -/
def emptyWorld (n : Nat) : World :=
  { images :=
      (List.range n).map fun k =>
        { id := k, itype := ImageType.regular, base := 0, stale := false, ops := [] }
    gpu := fun _ => 0 }

/-- The chain scenario after `m` draws: image 0 seeded by `WritePixels c`, then
image `k+1` drawn from image `k` with the deterministic pattern `f` for `k < m`. -/
def applyChainDraws (w : World) (f : Pix → Pix) : Nat → World
  | 0 => w
  | m + 1 => drawTriangles (applyChainDraws w f m) (m + 1) m (fun s _ => f s)

/-- The `n`-image chain of the claim: `n` regular images, image 0 seeded with `c`,
each successor produced from its predecessor by the pattern `f`. -/
def chainWorld (n : Nat) (c : Pix) (f : Pix → Pix) : World :=
  applyChainDraws (writePixels (emptyWorld n) 0 c) f (n - 1)

end Restorable

namespace GraphicsCommand

/-! ## Helper lemmas about the queue model -/

theorem addOffsetFrom_append (base idx : List Nat) (off : Nat) :
    addOffsetFrom (base ++ idx) base.length off = base ++ addOffsetFrom idx 0 off := by
  induction base with
  | nil => cases idx <;> rfl
  | cons x rest ih => simpa [addOffsetFrom] using ih

theorem addOffsetFrom_zero (idx : List Nat) (off : Nat) :
    addOffsetFrom idx 0 off = idx.map fun x => (x + off) % 2 ^ 32 := by
  induction idx with
  | nil => rfl
  | cons x rest ih => simpa [addOffsetFrom] using ih

theorem appendIndicesGo_eq (base idx : List Nat) (off : Nat) :
    appendIndicesGo base idx off = base ++ idx.map fun x => (x + off) % 2 ^ 32 := by
  rw [appendIndicesGo, addOffsetFrom_append, addOffsetFrom_zero]

/-- Characterization of a successful enqueue: when the fatal length check passes and
the queue is well formed (no queued draw command has an empty destination sub-region
list), the enqueue succeeds and updates the vertex buffer, the index buffer and the
vertex-float counter the same way on every branch. -/
theorem enqueue_some_char (q : CommandQueue) (dst : Image) (srcs : Srcs)
    (vs : List VFloat) (indices : List Nat) (blend : Blend) (dstRegion : Rect)
    (srcRegions : SrcRegions) (shader : Shader) (uniforms0 : List UVal)
    (fillRule : FillRule) (filterUniforms : List UVal → List UVal)
    (newNeedsSync : Bool)
    (hlen : ¬ maxVertexFloatCount < vs.length)
    (hwf : ∀ c, q.commands.getLast? = some (Command.draw c) → c.dstRegions ≠ []) :
    ∃ q2, enqueueDrawTriangles q dst srcs vs indices blend dstRegion srcRegions
        shader uniforms0 fillRule filterUniforms newNeedsSync = some q2 ∧
      q2.vertices = q.vertices ++ vs ∧
      q2.indices = appendIndicesGo q.indices indices
        (((if mustUseDifferentVertexBuffer (q.tmpNumVertexFloats + vs.length) then 0
            else q.tmpNumVertexFloats) / VertexFloatCount) % 2 ^ 32) ∧
      q2.tmpNumVertexFloats =
        (if mustUseDifferentVertexBuffer (q.tmpNumVertexFloats + vs.length) then 0
          else q.tmpNumVertexFloats) + vs.length := by
  simp only [enqueueDrawTriangles, if_neg hlen]
  split
  case h_1 last heq =>
    split
    case isTrue hcond =>
      split
      case h_1 hnone =>
        exact absurd (List.getLast?_eq_none_iff.mp hnone) (hwf last heq)
      case h_2 lastRegion hsome =>
        exact ⟨_, rfl, rfl, rfl, rfl⟩
    case isFalse hcond =>
      exact ⟨_, rfl, rfl, rfl, rfl⟩
  case h_2 hne =>
    exact ⟨_, rfl, rfl, rfl, rfl⟩

/-- C4: `EnqueueDrawTrianglesCommand` aborts with a fatal panic exactly when
`len(vertices)` exceeds `maxVertexFloatCount`; for any smaller vertex slice the
enqueue always succeeds, and the model has no error channel at enqueue time at all
(errors only arise in the flush model). The well-formedness hypothesis excludes the
unreachable state of a queued draw command with an empty destination sub-region
list, which the merge path would index out of bounds. -/
theorem enqueue_panic_iff_vertex_overflow (q : CommandQueue) (dst : Image)
    (srcs : Srcs) (vs : List VFloat) (indices : List Nat) (blend : Blend)
    (dstRegion : Rect) (srcRegions : SrcRegions) (shader : Shader)
    (uniforms0 : List UVal) (fillRule : FillRule)
    (filterUniforms : List UVal → List UVal) (newNeedsSync : Bool)
    (hwf : ∀ c, q.commands.getLast? = some (Command.draw c) → c.dstRegions ≠ []) :
    (enqueueDrawTriangles q dst srcs vs indices blend dstRegion srcRegions shader
        uniforms0 fillRule filterUniforms newNeedsSync = none) ↔
      maxVertexFloatCount < vs.length := by
  constructor
  · intro h
    by_contra hlen
    obtain ⟨q2, hq2, -, -, -⟩ := enqueue_some_char q dst srcs vs indices blend
      dstRegion srcRegions shader uniforms0 fillRule filterUniforms newNeedsSync hlen hwf
    rw [hq2] at h
    exact Option.noConfusion h
  · intro h
    simp only [enqueueDrawTriangles, if_pos h]

/-- Witness for C4 at a concrete input: a three-float vertex slice is within the
limit, so the enqueue does not abort. -/
theorem enqueue_panic_iff_vertex_overflow_witness :
    (enqueueDrawTriangles sQueueEmpty sImg sSrcs [1, 2, 3] [0] 0 sRect sSrcRegions
        sShader [] 0 id false = none) ↔ maxVertexFloatCount < 3 :=
  enqueue_panic_iff_vertex_overflow sQueueEmpty sImg sSrcs [1, 2, 3] [0] 0 sRect
    sSrcRegions sShader [] 0 id false (fun _ h => Option.noConfusion h)

/-- C5: `mustUseDifferentVertexBuffer n` holds exactly when `n` exceeds
`maxVertexFloatCount`; `MaxVertexCount` is `2^32 - 1` on 64-bit targets and
`MaxInt32 / graphics.VertexFloatCount` on 32-bit targets, so that
`maxVertexFloatCount` fits the signed word-sized int on both; and when the enqueue
detects a split, the running vertex-float counter restarts from zero (ending at
`len(vertices)` after the append) and the new draw is appended as a fresh command
rather than merged into the previous one. -/
theorem vertex_buffer_split_spec (q : CommandQueue) (dst : Image) (srcs : Srcs)
    (vs : List VFloat) (indices : List Nat) (blend : Blend) (dstRegion : Rect)
    (srcRegions : SrcRegions) (shader : Shader) (uniforms0 : List UVal)
    (fillRule : FillRule) (filterUniforms : List UVal → List UVal)
    (newNeedsSync : Bool)
    (hlen : ¬ maxVertexFloatCount < vs.length)
    (hsplit : mustUseDifferentVertexBuffer (q.tmpNumVertexFloats + vs.length) = true) :
    (∀ n, mustUseDifferentVertexBuffer n = true ↔ maxVertexFloatCount < n) ∧
    MaxVertexCountArch 64 VertexFloatCount = 2 ^ 32 - 1 ∧
    MaxVertexCountArch 32 VertexFloatCount = (2 ^ 31 - 1) / VertexFloatCount ∧
    maxVertexFloatCountArch 64 VertexFloatCount ≤ 2 ^ 63 - 1 ∧
    maxVertexFloatCountArch 32 VertexFloatCount ≤ 2 ^ 31 - 1 ∧
    ∃ q2 c, enqueueDrawTriangles q dst srcs vs indices blend dstRegion srcRegions
        shader uniforms0 fillRule filterUniforms newNeedsSync = some q2 ∧
      q2.tmpNumVertexFloats = vs.length ∧
      q2.commands = q.commands ++ [Command.draw c] := by
  refine ⟨fun n => by simp [mustUseDifferentVertexBuffer], by decide, by decide,
    by decide, by decide, ?_⟩
  simp only [enqueueDrawTriangles, if_neg hlen, hsplit, if_true, Bool.not_true,
    Bool.false_and, Bool.false_eq_true, if_false]
  split
  case h_1 last heq =>
    exact ⟨_, _, rfl, Nat.zero_add _, rfl⟩
  case h_2 hne =>
    exact ⟨_, _, rfl, Nat.zero_add _, rfl⟩

/-- Witness for C5 at a concrete input: the counter already sits at the limit, so a
three-float draw forces a split. -/
theorem vertex_buffer_split_spec_witness :
    (∀ n, mustUseDifferentVertexBuffer n = true ↔ maxVertexFloatCount < n) ∧
    MaxVertexCountArch 64 VertexFloatCount = 2 ^ 32 - 1 ∧
    MaxVertexCountArch 32 VertexFloatCount = (2 ^ 31 - 1) / VertexFloatCount ∧
    maxVertexFloatCountArch 64 VertexFloatCount ≤ 2 ^ 63 - 1 ∧
    maxVertexFloatCountArch 32 VertexFloatCount ≤ 2 ^ 31 - 1 ∧
    ∃ q2 c, enqueueDrawTriangles sQueueFull sImg sSrcs [1, 2, 3] [0] 0 sRect
        sSrcRegions sShader [] 0 id false = some q2 ∧
      q2.tmpNumVertexFloats = [1, 2, 3].length ∧
      q2.commands = sQueueFull.commands ++ [Command.draw c] :=
  vertex_buffer_split_spec sQueueFull sImg sSrcs [1, 2, 3] [0] 0 sRect sSrcRegions
    sShader [] 0 id false (by decide) (by decide)

/-- C6: `appendIndices` appends exactly `len(indices)` new elements, each the
corresponding input plus the offset (uint32 addition), leaving the previously
stored prefix untouched; and the enqueue appends the vertex floats verbatim and
uses the current (post-reset) vertex-float counter divided by
`graphics.VertexFloatCount` as the offset. -/
theorem append_indices_offset_spec (q : CommandQueue) (dst : Image) (srcs : Srcs)
    (vs : List VFloat) (indices : List Nat) (blend : Blend) (dstRegion : Rect)
    (srcRegions : SrcRegions) (shader : Shader) (uniforms0 : List UVal)
    (fillRule : FillRule) (filterUniforms : List UVal → List UVal)
    (newNeedsSync : Bool)
    (hlen : ¬ maxVertexFloatCount < vs.length)
    (hwf : ∀ c, q.commands.getLast? = some (Command.draw c) → c.dstRegions ≠ []) :
    (∀ base idx off, appendIndicesGo base idx off =
      base ++ idx.map fun x => (x + off) % 2 ^ 32) ∧
    ∃ q2, enqueueDrawTriangles q dst srcs vs indices blend dstRegion srcRegions
        shader uniforms0 fillRule filterUniforms newNeedsSync = some q2 ∧
      q2.vertices = q.vertices ++ vs ∧
      q2.indices = q.indices ++ indices.map fun x =>
        (x + (((if mustUseDifferentVertexBuffer (q.tmpNumVertexFloats + vs.length)
                then 0 else q.tmpNumVertexFloats) / VertexFloatCount) % 2 ^ 32)) %
          2 ^ 32 := by
  refine ⟨appendIndicesGo_eq, ?_⟩
  obtain ⟨q2, h1, h2, h3, h4⟩ := enqueue_some_char q dst srcs vs indices blend
    dstRegion srcRegions shader uniforms0 fillRule filterUniforms newNeedsSync hlen hwf
  exact ⟨q2, h1, h2, by rw [h3, appendIndicesGo_eq]⟩

/-- Witness for C6 at a concrete input. -/
theorem append_indices_offset_spec_witness :
    (∀ base idx off, appendIndicesGo base idx off =
      base ++ idx.map fun x => (x + off) % 2 ^ 32) ∧
    ∃ q2, enqueueDrawTriangles sQueueEmpty sImg sSrcs [1, 2, 3] [0, 1] 0 sRect
        sSrcRegions sShader [] 0 id false = some q2 ∧
      q2.vertices = sQueueEmpty.vertices ++ [1, 2, 3] ∧
      q2.indices = sQueueEmpty.indices ++ [0, 1].map fun x =>
        (x + (((if mustUseDifferentVertexBuffer
                  (sQueueEmpty.tmpNumVertexFloats + [1, 2, 3].length)
                then 0 else sQueueEmpty.tmpNumVertexFloats) / VertexFloatCount) %
            2 ^ 32)) % 2 ^ 32 :=
  append_indices_offset_spec sQueueEmpty sImg sSrcs [1, 2, 3] [0, 1] 0 sRect
    sSrcRegions sShader [] 0 id false (by decide) (fun _ h => Option.noConfusion h)

/-- C1: when no vertex-buffer split occurred, the last queued command is a
draw-triangles command and it is merge-compatible with the new draw (same
destination, sources, shader, blend, fill rule, equal filtered uniforms), the
enqueue appends no new command: the last command's vertex window is extended in
place to cover the new vertices, and its destination sub-region list either grows
the final entry's index count by `len(indices)` (same rectangle) or gains a new
entry with the new rectangle and index count `len(indices)`. -/
theorem enqueue_merge_extends_last_command (q : CommandQueue) (dst : Image)
    (srcs : Srcs) (vs : List VFloat) (indices : List Nat) (blend : Blend)
    (dstRegion : Rect) (srcRegions : SrcRegions) (shader : Shader)
    (uniforms0 : List UVal) (fillRule : FillRule)
    (filterUniforms : List UVal → List UVal) (newNeedsSync : Bool)
    (last : DrawCmd) (lastRegion : DstRegion)
    (hlen : vs.length ≤ maxVertexFloatCount)
    (hsplit : mustUseDifferentVertexBuffer (q.tmpNumVertexFloats + vs.length) = false)
    (hlast : q.commands.getLast? = some (Command.draw last))
    (hmerge : canMerge last dst srcs blend shader
      (filterUniforms (prependPreservedUniformsQ uniforms0 shader dst srcs dstRegion
        srcRegions)) fillRule = true)
    (hreg : last.dstRegions.getLast? = some lastRegion)
    (hspan : last.vStart + last.vCount = q.vertices.length) :
    ∃ q2, enqueueDrawTriangles q dst srcs vs indices blend dstRegion srcRegions
        shader uniforms0 fillRule filterUniforms newNeedsSync = some q2 ∧
      q2.commands.length = q.commands.length ∧
      q2.commands.dropLast = q.commands.dropLast ∧
      ∃ m, q2.commands.getLast? = some (Command.draw m) ∧
        m.vStart = last.vStart ∧
        m.vCount = last.vCount + vs.length ∧
        spanSlice q2.vertices m.vStart m.vCount =
          spanSlice q.vertices last.vStart last.vCount ++ vs ∧
        m.dstRegions =
          (if lastRegion.region = dstRegion then
            last.dstRegions.dropLast ++
              [{ lastRegion with indexCount := lastRegion.indexCount + indices.length }]
          else
            last.dstRegions ++ [{ region := dstRegion, indexCount := indices.length }]) := by
  have hlen2 : ¬ maxVertexFloatCount < vs.length := not_lt.mpr hlen
  have hne : q.commands ≠ [] := by
    intro h
    rw [h] at hlast
    exact Option.noConfusion hlast
  have hvc : last.vCount ≤ q.vertices.length := by omega
  have hstart : last.vStart = q.vertices.length - last.vCount := by omega
  simp only [enqueueDrawTriangles, if_neg hlen2]
  split
  case h_2 hno =>
    exact absurd hlast (hno last)
  case h_1 lastA heqA =>
    have hEq : Command.draw lastA = Command.draw last := by
      rw [heqA] at hlast
      exact Option.some.inj hlast
    cases hEq
    rw [hsplit, hmerge]
    simp only [Bool.not_false, Bool.true_and, if_true]
    split
    case h_1 hnone =>
      rw [hnone] at hreg
      exact Option.noConfusion hreg
    case h_2 regA heqR =>
      have hRegEq : regA = lastRegion := by
        rw [heqR] at hreg
        exact Option.some.inj hreg
      cases hRegEq
      refine ⟨_, rfl, ?_, ?_, ?_⟩
      · simp only [List.length_append, List.length_dropLast, List.length_singleton]
        have : 0 < q.commands.length := List.length_pos.mpr hne
        omega
      · rw [List.dropLast_concat]
      · refine ⟨_, List.getLast?_concat _, ?_, ?_, ?_, rfl⟩
        · simp only [DrawCmd.numVertices, List.length_append]
          omega
        · simp only [DrawCmd.numVertices]
          omega
        · simp only [DrawCmd.numVertices, spanSlice, List.length_append]
          have h1 : q.vertices.length + vs.length - (vs.length + last.vCount) =
              last.vStart := by omega
          rw [h1, List.drop_append_eq_append_drop,
            Nat.sub_eq_zero_of_le (hstart ▸ Nat.sub_le _ _), List.drop_zero,
            List.take_append_eq_append_take]
          have hdl : (q.vertices.drop last.vStart).length = last.vCount := by
            rw [List.length_drop]
            omega
          have ha : (q.vertices.drop last.vStart).length ≤ vs.length + last.vCount := by
            omega
          have hb : (q.vertices.drop last.vStart).length ≤ last.vCount := le_of_eq hdl
          have hc : vs.length + last.vCount - (q.vertices.drop last.vStart).length =
              vs.length := by omega
          rw [List.take_of_length_le ha, List.take_of_length_le hb, hc, List.take_length]

/-- Witness for C1 at a concrete input: a queue holding one mergeable draw command
receives a compatible three-float draw targeting the same rectangle. -/
theorem enqueue_merge_extends_last_command_witness :
    ∃ q2, enqueueDrawTriangles sQueueMerge sImg sSrcs [10, 11, 12] [0] 0 sRect
        sSrcRegions sShader [] 0 id false = some q2 ∧
      q2.commands.length = sQueueMerge.commands.length ∧
      q2.commands.dropLast = sQueueMerge.commands.dropLast ∧
      ∃ m, q2.commands.getLast? = some (Command.draw m) ∧
        m.vStart = sMergeCmd.vStart ∧
        m.vCount = sMergeCmd.vCount + [10, 11, 12].length ∧
        spanSlice q2.vertices m.vStart m.vCount =
          spanSlice sQueueMerge.vertices sMergeCmd.vStart sMergeCmd.vCount ++
            [10, 11, 12] ∧
        m.dstRegions =
          (if sDstReg.region = sRect then
            sMergeCmd.dstRegions.dropLast ++
              [{ sDstReg with indexCount := sDstReg.indexCount + [0].length }]
          else
            sMergeCmd.dstRegions ++ [{ region := sRect, indexCount := [0].length }]) :=
  enqueue_merge_extends_last_command sQueueMerge sImg sSrcs [10, 11, 12] [0] 0 sRect
    sSrcRegions sShader [] 0 id false sMergeCmd sDstReg (by decide) (by decide)
    (by decide) (by decide) (by decide) (by decide)

theorem execRun_no_end (f : Nat → Option Err) (cs : List Command) (i : Nat) :
    ∀ ev ∈ (execRun f cs i).2.1, ev.isEnd = false := by
  induction cs generalizing i with
  | nil =>
    intro ev h
    cases h
  | cons c rest ih =>
    intro ev h
    simp only [execRun] at h
    split at h
    · rcases List.mem_singleton.mp h with rfl
      rfl
    · rcases List.mem_cons.mp h with rfl | h2
      · rfl
      · exact ih (i + 1) ev h2

theorem flushBodyF_no_end (b : Backend) (fuel : Nat) :
    ∀ cs svIdx execIdx, ∀ ev ∈ (flushBodyF b fuel cs svIdx execIdx).2,
      ev.isEnd = false := by
  induction fuel with
  | zero =>
    intro cs svIdx execIdx ev h
    cases h
  | succ fuel ih =>
    intro cs svIdx execIdx ev h
    simp only [flushBodyF] at h
    split at h
    · cases h
    · split at h
      · split at h
        · rcases List.mem_singleton.mp h with rfl
          rfl
        · split at h
          · rcases List.mem_cons.mp h with rfl | h2
            · rfl
            · exact execRun_no_end _ _ _ ev h2
          · rcases List.mem_cons.mp h with rfl | h2
            · rfl
            · rcases List.mem_append.mp h2 with h3 | h3
              · exact execRun_no_end _ _ _ ev h3
              · exact ih _ _ _ ev h3
      · split at h
        · exact execRun_no_end _ _ _ ev h
        · rcases List.mem_append.mp h with h3 | h3
          · exact execRun_no_end _ _ _ ev h3
          · exact ih _ _ _ ev h3

theorem flushBody_countP_end (b : Backend) (cs : List Command) :
    (flushBody b cs).2.countP Ev.isEnd = 0 :=
  List.countP_eq_zero.mpr fun ev h => by
    simp [flushBodyF_no_end b cs.length cs 0 0 ev h]

/-- C3: once `Begin()` has been called and returned successfully, every path through
the flush — including the paths where `SetVertices` or a command execution fails —
performs exactly one `End(endFrame)` call, as the final backend call before flush
returns; and if the command-processing body succeeded, the returned error is
whatever `End` returned. -/
theorem flush_calls_end_exactly_once (b : Backend) (q : CommandQueue)
    (endFrame : Bool) (hbegin : b.beginErr = none)
    (hrun : q.commands ≠ [] ∨ endFrame = true) :
    (flushModel b q endFrame).events.countP Ev.isEnd = 1 ∧
    (flushModel b q endFrame).events.getLast? = some (Ev.endE endFrame) ∧
    ((flushBody b q.commands).1 = none →
      (flushModel b q endFrame).err = b.endErr endFrame) := by
  have hcond : ¬((q.commands.isEmpty && !endFrame) = true) := by
    rcases hrun with h | h
    · simp [List.isEmpty_iff, h]
    · simp [h]
  simp only [flushModel, hbegin, if_neg hcond]
  refine ⟨?_, ?_, ?_⟩
  · simp [List.countP_cons, List.countP_append, Ev.isEnd, flushBody_countP_end]
  · rw [show Ev.beginE :: (flushBody b q.commands).2 ++ [Ev.endE endFrame] =
      (Ev.beginE :: (flushBody b q.commands).2) ++ [Ev.endE endFrame] from rfl,
      List.getLast?_concat]
  · intro h
    rw [h]

/-- Witness for C3 at a concrete input: an end-of-frame flush of a queue holding one
command against a healthy backend. -/
theorem flush_calls_end_exactly_once_witness :
    (flushModel sBackendOk sQueueCmds true).events.countP Ev.isEnd = 1 ∧
    (flushModel sBackendOk sQueueCmds true).events.getLast? = some (Ev.endE true) ∧
    ((flushBody sBackendOk sQueueCmds.commands).1 = none →
      (flushModel sBackendOk sQueueCmds true).err = sBackendOk.endErr true) :=
  flush_calls_end_exactly_once sBackendOk sQueueCmds true rfl (Or.inr rfl)

/-- C2: when a flush runs asynchronously and the backend fails, the error is not
raised to the caller but stored in the queue's error slot, and any next `Flush` call
against that queue returns the stored error while performing no backend call at
all. -/
theorem async_flush_error_stored_and_surfaced (b : Backend) (q : CommandQueue)
    (endFrame vsyncOn : Bool) (e : Err)
    (hslot : q.errSlot = none)
    (hsync : computeSync endFrame vsyncOn q.commands = false)
    (herr : (flushModel b q endFrame).err = some e) :
    (flushPublic b q endFrame vsyncOn).returned = none ∧
    (flushPublic b q endFrame vsyncOn).queue.errSlot = some e ∧
    ∀ b2 ef2 vs2,
      (flushPublic b2 (flushPublic b q endFrame vsyncOn).queue ef2 vs2).returned =
        some e ∧
      (flushPublic b2 (flushPublic b q endFrame vsyncOn).queue ef2 vs2).events =
        [] := by
  simp only [flushPublic, hslot, hsync, herr, Bool.false_eq_true, if_false]
  simp

/-- Witness for C2 at a concrete input: a non-frame-boundary flush whose only
command's execution fails asynchronously; the next flush surfaces the stored error
without touching the backend. -/
theorem async_flush_error_stored_and_surfaced_witness :
    (flushPublic sBackendExecFail sQueueCmds false false).returned = none ∧
    (flushPublic sBackendExecFail sQueueCmds false false).queue.errSlot = some 2 ∧
    (flushPublic sBackendOk
        (flushPublic sBackendExecFail sQueueCmds false false).queue false
        false).returned = some 2 ∧
    (flushPublic sBackendOk
        (flushPublic sBackendExecFail sQueueCmds false false).queue false
        false).events = [] :=
  let h := async_flush_error_stored_and_surfaced sBackendExecFail sQueueCmds false
    false 2 rfl (by decide) (by decide)
  ⟨h.1, h.2.1, (h.2.2 sBackendOk false false).1, (h.2.2 sBackendOk false false).2⟩

/-- C7: a flush (on a queue with no stored error) runs synchronously exactly when
this is a frame boundary with vsync enabled or some queued command reports
`NeedsSync()`; every other flush runs asynchronously and returns nil. -/
theorem flush_sync_iff (b : Backend) (q : CommandQueue) (endFrame vsyncOn : Bool)
    (hslot : q.errSlot = none) :
    ((flushPublic b q endFrame vsyncOn).sync = true ↔
      (endFrame = true ∧ vsyncOn = true) ∨
        ∃ c ∈ q.commands, c.needsSyncB = true) ∧
    ((flushPublic b q endFrame vsyncOn).sync = false →
      (flushPublic b q endFrame vsyncOn).returned = none) := by
  have hs : (flushPublic b q endFrame vsyncOn).sync =
      computeSync endFrame vsyncOn q.commands := by
    simp only [flushPublic, hslot]
    split
    · split <;> rfl
    · rfl
  have hcs : computeSync endFrame vsyncOn q.commands =
      (endFrame && vsyncOn || q.commands.any Command.needsSyncB) := by
    simp only [computeSync]
    cases h : (endFrame && vsyncOn) <;> simp
  constructor
  · rw [hs, hcs]
    simp [List.any_eq_true, Bool.and_eq_true]
  · intro h
    rw [hs] at h
    simp only [flushPublic, hslot]
    split
    · simp [h]
    · rfl

/-- Witness for C7 at a concrete input: a non-frame-boundary flush of a queue whose
only command does not need synchronization. -/
theorem flush_sync_iff_witness :
    ((flushPublic sBackendOk sQueueCmds false false).sync = true ↔
      (false = true ∧ false = true) ∨
        ∃ c ∈ sQueueCmds.commands, c.needsSyncB = true) ∧
    ((flushPublic sBackendOk sQueueCmds false false).sync = false →
      (flushPublic sBackendOk sQueueCmds false false).returned = none) :=
  flush_sync_iff sBackendOk sQueueCmds false false rfl

/-- Counterexample to C10 as stated: when `Begin` itself fails, the flush returns an
error without registering the deferred cleanup, so the command list is not emptied
— the cleanup is not unconditional over every flush call. -/
theorem flush_cleanup_not_unconditional_cex :
    (flushModel sBackendBeginFail sQueueCmds false).err = some 1 ∧
    (flushModel sBackendBeginFail sQueueCmds false).queue.commands ≠ [] := by
  decide

/-- C10 amended: after every `commandQueue.flush` call in which `Begin` did not
fail (in particular after every call that got as far as registering the deferred
cleanup, and trivially on the idle early-return path), the command list, vertex
buffer and index buffer are empty, the vertex-float counter is zero and every
queued draw-triangles record has been returned to the pool — also when a later step
of the flush returned an error. The reachability hypothesis `hinv` states that an
empty command list comes with empty buffers, which every queue built by the enqueue
operations satisfies. -/
theorem flush_clears_queue_after_begin (b : Backend) (q : CommandQueue)
    (endFrame : Bool) (hbegin : b.beginErr = none)
    (hinv : q.commands = [] →
      q.vertices = [] ∧ q.indices = [] ∧ q.tmpNumVertexFloats = 0) :
    (flushModel b q endFrame).queue.commands = [] ∧
    (flushModel b q endFrame).queue.vertices = [] ∧
    (flushModel b q endFrame).queue.indices = [] ∧
    (flushModel b q endFrame).queue.tmpNumVertexFloats = 0 ∧
    (flushModel b q endFrame).queue.pool = q.pool ++ drawRecords q.commands := by
  simp only [flushModel, hbegin]
  split
  case isTrue h =>
    have hc : q.commands = [] := by
      rcases Bool.and_eq_true_iff.mp h with ⟨h1, h2⟩
      exact List.isEmpty_iff.mp h1
    obtain ⟨h1, h2, h3⟩ := hinv hc
    simp [hc, h1, h2, h3, drawRecords]
  case isFalse h =>
    exact ⟨rfl, rfl, rfl, rfl, by simp⟩

/-- Witness for the amended C10 at a concrete input: flushing a queue holding one
command against a healthy backend clears everything. -/
theorem flush_clears_queue_after_begin_witness :
    (flushModel sBackendOk sQueueCmds false).queue.commands = [] ∧
    (flushModel sBackendOk sQueueCmds false).queue.vertices = [] ∧
    (flushModel sBackendOk sQueueCmds false).queue.indices = [] ∧
    (flushModel sBackendOk sQueueCmds false).queue.tmpNumVertexFloats = 0 ∧
    (flushModel sBackendOk sQueueCmds false).queue.pool =
      sQueueCmds.pool ++ drawRecords sQueueCmds.commands :=
  flush_clears_queue_after_begin sBackendOk sQueueCmds false rfl (by decide)

/-- C8: every enqueued draw receives a preserved block of exactly 46 dwords with
the fixed, shader-independent layout described by `specPreservedBlock`, and the
caller-supplied uniform values follow unchanged from slot 46 onward. -/
theorem preserved_uniform_layout (uniforms : List UVal) (shader : Shader)
    (dst : Image) (srcs : Srcs) (dstRegion : Rect) (srcRegions : SrcRegions) :
    prependPreservedUniformsQ uniforms shader dst srcs dstRegion srcRegions =
      specPreservedBlock shader dst srcs dstRegion srcRegions ++ uniforms ∧
    (specPreservedBlock shader dst srcs dstRegion srcRegions).length =
      PreservedUniformDwordCount := by
  obtain ⟨sid, unit⟩ := shader
  obtain ⟨s0, s1, s2, s3⟩ := srcs
  constructor
  · cases unit <;> cases s0 <;> cases s1 <;> cases s2 <;> cases s3 <;> rfl
  · cases unit <;> cases s0 <;> cases s1 <;> cases s2 <;> cases s3 <;> rfl

end GraphicsCommand

namespace Restorable

/-! ## Restoration lemmas -/

/-- The reachable-state invariant of the modelled worlds: every image is a regular
image, and a non-stale image's base pixels are authoritative for its backend
contents. -/
def GoodWorld (w : World) : Prop :=
  ∀ img ∈ w.images, img.itype = ImageType.regular ∧
    (img.stale = false → img.base = w.gpu img.id)

theorem writePixels_good (w : World) (i : Nat) (p : Pix) (hw : GoodWorld w) :
    GoodWorld (writePixels w i p) := by
  intro img h
  simp only [writePixels, List.mem_map] at h
  obtain ⟨a, ha, rfl⟩ := h
  by_cases hid : a.id = i
  · simp only [if_pos hid]
    refine ⟨(hw a ha).1, fun _ => ?_⟩
    simp [writePixels, updateGpu, hid]
  · simp only [if_neg hid]
    refine ⟨(hw a ha).1, fun hs => ?_⟩
    rw [(hw a ha).2 hs]
    simp [writePixels, updateGpu, hid]

theorem drawTriangles_good (w : World) (dstId srcId : Nat) (f : Pix → Pix → Pix)
    (hw : GoodWorld w) : GoodWorld (drawTriangles w dstId srcId f) := by
  intro img h
  simp only [drawTriangles, List.mem_map] at h
  obtain ⟨a, ha, rfl⟩ := h
  by_cases hid : a.id = dstId
  · simp only [if_pos hid]
    refine ⟨(hw a ha).1, fun hs => ?_⟩
    simp at hs
  · simp only [if_neg hid]
    refine ⟨(hw a ha).1, fun hs => ?_⟩
    rw [(hw a ha).2 hs]
    simp [drawTriangles, updateGpu, hid]

theorem writePixels_map_id (w : World) (i : Nat) (p : Pix) :
    (writePixels w i p).images.map RImage.id = w.images.map RImage.id := by
  simp only [writePixels, List.map_map]
  apply List.map_congr_left
  intro a _
  by_cases h : a.id = i <;> simp [h]

theorem drawTriangles_map_id (w : World) (dstId srcId : Nat) (f : Pix → Pix → Pix) :
    (drawTriangles w dstId srcId f).images.map RImage.id = w.images.map RImage.id := by
  simp only [drawTriangles, List.map_map]
  apply List.map_congr_left
  intro a _
  by_cases h : a.id = dstId <;> simp [h]

theorem resolveStale_map_id (w : World) :
    (resolveStale w).images.map RImage.id = w.images.map RImage.id := by
  simp only [resolveStale, List.map_map]
  apply List.map_congr_left
  intro a _
  by_cases h : a.stale <;> simp [h]

theorem applyChainDraws_good (w : World) (f : Pix → Pix) (hw : GoodWorld w) :
    ∀ m, GoodWorld (applyChainDraws w f m)
  | 0 => hw
  | m + 1 => drawTriangles_good _ _ _ _ (applyChainDraws_good w f hw m)

theorem applyChainDraws_map_id (w : World) (f : Pix → Pix) :
    ∀ m, (applyChainDraws w f m).images.map RImage.id = w.images.map RImage.id
  | 0 => rfl
  | m + 1 => by
    rw [applyChainDraws, drawTriangles_map_id, applyChainDraws_map_id w f m]

theorem emptyWorld_good (n : Nat) : GoodWorld (emptyWorld n) := by
  intro img h
  simp only [emptyWorld, List.mem_map] at h
  obtain ⟨k, hk, rfl⟩ := h
  exact ⟨rfl, fun _ => rfl⟩

theorem emptyWorld_map_id (n : Nat) :
    (emptyWorld n).images.map RImage.id = List.range n := by
  simp only [emptyWorld, List.map_map]
  exact List.map_id' (List.range n)

theorem chainWorld_good (n : Nat) (c : Pix) (f : Pix → Pix) :
    GoodWorld (chainWorld n c f) :=
  applyChainDraws_good _ _ (writePixels_good _ _ _ (emptyWorld_good n)) (n - 1)

theorem chainWorld_map_id (n : Nat) (c : Pix) (f : Pix → Pix) :
    (chainWorld n c f).images.map RImage.id = List.range n := by
  rw [chainWorld, applyChainDraws_map_id, writePixels_map_id, emptyWorld_map_id]

theorem resolveStale_props (w : World) (hw : GoodWorld w) :
    ∀ img ∈ (resolveStale w).images,
      img.itype = ImageType.regular ∧ img.stale = false ∧
        img.base = w.gpu img.id := by
  intro img h
  simp only [resolveStale, List.mem_map] at h
  obtain ⟨a, ha, rfl⟩ := h
  by_cases hs : a.stale = true
  · simp only [if_pos hs]
    refine ⟨(hw a ha).1, ?_, ?_⟩ <;> trivial
  · have hs2 : a.stale = false := Bool.not_eq_true _ ▸ eq_false_of_ne_true hs
    simp only [if_neg hs]
    exact ⟨(hw a ha).1, hs2, (hw a ha).2 hs2⟩

theorem restoreAll_not_mem (imgs : List RImage) (g : Nat → Pix) (i : Nat)
    (h : i ∉ imgs.map RImage.id) : restoreAll imgs g i = g i := by
  induction imgs generalizing g with
  | nil => rfl
  | cons img rest ih =>
    simp only [List.map_cons, List.mem_cons, not_or] at h
    simp only [restoreAll]
    rw [ih _ h.2, updateGpu]
    simp [h.1]

theorem restoreAll_from_base (imgs : List RImage) (g : Nat → Pix)
    (hreg : ∀ img ∈ imgs, img.itype = ImageType.regular ∧ img.stale = false)
    (hnd : (imgs.map RImage.id).Nodup) :
    ∀ img ∈ imgs, restoreAll imgs g img.id = img.base := by
  induction imgs generalizing g with
  | nil =>
    intro img h
    cases h
  | cons head rest ih =>
    intro img h
    rcases List.mem_cons.mp h with rfl | h2
    · have hnotin : img.id ∉ rest.map RImage.id := by
        simp only [List.map_cons, List.nodup_cons] at hnd
        exact hnd.1
      simp only [restoreAll]
      rw [restoreAll_not_mem _ _ _ hnotin, updateGpu]
      obtain ⟨hr, hs⟩ := hreg img (List.mem_cons_self _ _)
      simp [restoreOne, hr, hs]
    · simp only [restoreAll]
      refine ih _ ?_ ?_ img h2
      · intro x hx
        exact hreg x (List.mem_cons_of_mem _ hx)
      · simp only [List.map_cons, List.nodup_cons] at hnd
        exact hnd.2

/-- C9: for the n-image chain in which image 0 is seeded by WritePixels and image
k+1 is drawn from image k with a fixed deterministic pattern, resolving stale
images and then running restoration after a context loss (which wipes the backend
contents to an arbitrary value) leaves every chain image's backend contents exactly
equal to its pre-loss contents; the model is deterministic, so exact equality holds
and in particular the claim's per-channel tolerance is met. -/
theorem restore_chain_roundtrip (n : Nat) (c lost : Pix) (f : Pix → Pix) (k : Nat)
    (hk : k < n) :
    restoreAll (resolveStale (chainWorld n c f)).images (fun _ => lost) k =
      (chainWorld n c f).gpu k := by
  have hmap2 : (resolveStale (chainWorld n c f)).images.map RImage.id =
      List.range n := by
    rw [resolveStale_map_id, chainWorld_map_id]
  have hkmem : k ∈ (resolveStale (chainWorld n c f)).images.map RImage.id := by
    rw [hmap2]
    exact List.mem_range.mpr hk
  obtain ⟨img, hmem, hid⟩ := List.mem_map.mp hkmem
  have props := resolveStale_props (chainWorld n c f) (chainWorld_good n c f)
  have hnd : ((resolveStale (chainWorld n c f)).images.map RImage.id).Nodup := by
    rw [hmap2]
    exact List.nodup_range n
  have hbase := restoreAll_from_base (resolveStale (chainWorld n c f)).images
    (fun _ => lost)
    (fun im h => ⟨(props im h).1, (props im h).2.1⟩) hnd img hmem
  rw [hid] at hbase
  rw [hbase, (props img hmem).2.2, hid]

/-- Witness for C9 at the claim's example size: a chain of ten images. -/
theorem restore_chain_roundtrip_witness :
    restoreAll (resolveStale (chainWorld 10 5 Nat.succ)).images (fun _ => 7) 9 =
      (chainWorld 10 5 Nat.succ).gpu 9 :=
  restore_chain_roundtrip 10 5 7 Nat.succ 9 (by decide)

end Restorable
